import Mathlib

/-!
Verification of the agentauth request-handling pipeline.

The definitions below are a shallow embedding of the TypeScript source
(`config.ts` / `proxy.ts` / `audit.ts`): JavaScript strings are `List Char`,
JavaScript plain objects are association lists with assign-replace update
semantics, and the event-driven request handler is modelled both as a
sequential function (body chunks first, then the single upstream result)
and as a fold over an explicit event trace (for interleaving-sensitive
properties).  Real time (the `ts` timestamp field and `Date.now()`
durations) is threaded as abstract inputs; the timestamp string itself is
omitted from the audit-entry model since no property depends on it.
-/

namespace AgentAuth

/-- JavaScript strings, embedded as lists of characters. -/
abbrev Str := List Char

/-- Conversion from Lean string literals into the embedding. -/
def str (s : String) : Str := s.toList

/-- `String.prototype.toLowerCase`, restricted to the per-character map
(identical to the JS behaviour on ASCII header names, which is all the
source ever lowercases). -/
def lowerStr (s : Str) : Str := s.map Char.toLower

/-! ## JavaScript object semantics

Node's `req.headers`, the config `headers` map and the outbound header
object are plain JS objects: string-keyed, assignment replaces the value of
an existing key in place and appends a fresh key. -/

/-- JS object property assignment `m[k] = v`: replace the first binding of
`k` if present, otherwise append. -/
def objSet : List (Str × Str) → Str → Str → List (Str × Str)
  | [], k, v => [(k, v)]
  | p :: rest, k, v => if p.1 = k then (k, v) :: rest else p :: objSet rest k v

/-- JS object property read `m[k]`. -/
def objGet : List (Str × Str) → Str → Option Str
  | [], _ => none
  | p :: rest, k => if p.1 = k then some p.2 else objGet rest k

/-! ## config.ts -/

/-- `BackendConfig` from config.ts (plus the `maxBodyBytes` field that
proxy.ts reads off the backend object). -/
structure BackendConfig where
  target : Str
  headers : List (Str × Str)
  allowedPaths : Option (List Str)
  maxBodyBytes : Option Nat
deriving DecidableEq

/-- `AgentAuthConfig` (the fields the request pipeline consumes). -/
structure Config where
  port : Nat
  backends : List (Str × BackendConfig)
deriving DecidableEq

/-- `this.config.backends[backendName]` — JS object lookup on the backend
table. -/
def lookupBackend (backends : List (Str × BackendConfig)) (name : Str) :
    Option BackendConfig :=
  (backends.find? (fun p => p.1 == name)).map Prod.snd

/-- One pattern test from the loop body of `isPathAllowed`:
`pattern.endsWith('*')` selects a prefix match on `pattern.slice(0, -1)`,
otherwise exact equality. -/
def patMatch (path pat : Str) : Bool :=
  if pat.getLast? = some '*' then List.isPrefixOf pat.dropLast path
  else pat == path

/-- `isPathAllowed` from config.ts: empty or absent pattern list allows
everything, otherwise some pattern must match. -/
def isPathAllowed (path : Str) (allowedPaths : Option (List Str)) : Bool :=
  match allowedPaths with
  | none => true
  | some pats => if pats.isEmpty then true else pats.any (fun pat => patMatch path pat)

/-! ## proxy.ts constants -/

/-- `DEFAULT_MAX_BODY_BYTES = 10 * 1024 * 1024`. -/
def DEFAULT_MAX_BODY_BYTES : Nat := 10 * 1024 * 1024

/-- The fixed response-header allowlist `ALLOWED_RESPONSE_HEADERS`. -/
def ALLOWED_RESPONSE_HEADERS : List Str :=
  [str "content-type", str "content-length", str "content-encoding",
   str "transfer-encoding", str "cache-control", str "date", str "etag",
   str "vary"]

/-- `backend.maxBodyBytes ?? DEFAULT_MAX_BODY_BYTES`. -/
def maxBodyOf (be : BackendConfig) : Nat :=
  be.maxBodyBytes.getD DEFAULT_MAX_BODY_BYTES

/-! ## Percent decoding

`decodeURIComponent`: `%XX` escape pairs are decoded as UTF-8 bytes
(multi-byte sequences must be complete, well-formed, non-overlong, and
denote a Unicode scalar value, otherwise the function throws — modelled as
`none`); all other characters pass through unchanged. -/

/-- Value of one hex digit, upper or lower case. -/
def hexVal (c : Char) : Option Nat :=
  if '0' ≤ c ∧ c ≤ '9' then some (c.toNat - '0'.toNat)
  else if 'a' ≤ c ∧ c ≤ 'f' then some (c.toNat - 'a'.toNat + 10)
  else if 'A' ≤ c ∧ c ≤ 'F' then some (c.toNat - 'A'.toNat + 10)
  else none

/-- Payload of a UTF-8 continuation byte written as two hex digits, if the
byte is in `0x80..0xBF`. -/
def contByte (c1 c2 : Char) : Option Nat :=
  match hexVal c1, hexVal c2 with
  | some h1, some h2 =>
    let b := 16 * h1 + h2
    if 0x80 ≤ b ∧ b < 0xC0 then some (b - 0x80) else none
  | _, _ => none

/-- `decodeURIComponent` (throw modelled as `none`). -/
def decodeURIComponent : Str → Option Str
  | [] => some []
  | '%' :: c1 :: c2 :: rest =>
    match hexVal c1, hexVal c2 with
    | some h1, some h2 =>
      let b := 16 * h1 + h2
      if b < 0x80 then
        Option.map (fun t => Char.ofNat b :: t) (decodeURIComponent rest)
      else if b < 0xC2 then none
      else if b < 0xE0 then
        match rest with
        | '%' :: c3 :: c4 :: rest2 =>
          match contByte c3 c4 with
          | some p2 =>
            Option.map (fun t => Char.ofNat ((b - 0xC0) * 0x40 + p2) :: t)
              (decodeURIComponent rest2)
          | none => none
        | _ => none
      else if b < 0xF0 then
        match rest with
        | '%' :: c3 :: c4 :: '%' :: c5 :: c6 :: rest2 =>
          match contByte c3 c4, contByte c5 c6 with
          | some p2, some p3 =>
            let cp := (b - 0xE0) * 0x1000 + p2 * 0x40 + p3
            if 0x800 ≤ cp ∧ (cp < 0xD800 ∨ 0xDFFF < cp) then
              Option.map (fun t => Char.ofNat cp :: t) (decodeURIComponent rest2)
            else none
          | _, _ => none
        | _ => none
      else if b < 0xF5 then
        match rest with
        | '%' :: c3 :: c4 :: '%' :: c5 :: c6 :: '%' :: c7 :: c8 :: rest2 =>
          match contByte c3 c4, contByte c5 c6, contByte c7 c8 with
          | some p2, some p3, some p4 =>
            let cp := (b - 0xF0) * 0x40000 + p2 * 0x1000 + p3 * 0x40 + p4
            if 0x10000 ≤ cp ∧ cp ≤ 0x10FFFF then
              Option.map (fun t => Char.ofNat cp :: t) (decodeURIComponent rest2)
            else none
          | _, _, _ => none
        | _ => none
      else none
    | _, _ => none
  | '%' :: _ => none
  | c :: rest => Option.map (fun t => c :: t) (decodeURIComponent rest)

/-! ## Request-target parsing (handleRequest, lines 186-212) -/

/-- `rawPath.split('?')[0]`. -/
def beforeQuery (s : Str) : Str := s.takeWhile (fun c => !(c == '?'))

/-- The query-string suffix that `handleRequest` re-appends:
`qIdx !== -1 ? rawPath.substring(qIdx) : ''` (including the `?`). -/
def rawQuery (s : Str) : Str := s.dropWhile (fun c => !(c == '?'))

/-- `haystack.includes(needle)`: contiguous-substring test. -/
def hasSubstr (needle : Str) : Str → Bool
  | [] => needle.isEmpty
  | s@(_ :: rest) => List.isPrefixOf needle s || hasSubstr needle rest

/-- `targetPath.includes('..')`. -/
def containsDotDot (s : Str) : Bool := hasSubstr (str "..") s

/-- The `/{backend}/{path}` split: `slashIdx = url.indexOf('/', 1)`; on
`-1` the request is invalid, otherwise the backend name is
`url.substring(1, slashIdx)` and the raw path `url.substring(slashIdx)`. -/
def splitBackend : Str → Option (Str × Str)
  | [] => none
  | _ :: rest =>
    let name := rest.takeWhile (fun c => !(c == '/'))
    let rawPath := rest.dropWhile (fun c => !(c == '/'))
    if rawPath.isEmpty then none else some (name, rawPath)

/-! ## Outbound header construction (forward, lines 247-258) -/

/-- The first header-building loop: copy every inbound header whose key is
neither `host` nor `connection` (`key !== 'host' && key !== 'connection'`)
into a fresh object. -/
def copyReqHeaders (reqHeaders : List (Str × Str)) : List (Str × Str) :=
  reqHeaders.foldl
    (fun acc p =>
      if !(p.1 == str "host" || p.1 == str "connection") then objSet acc p.1 p.2
      else acc) []

/-- The second loop: `headers[key] = value` for every configured backend
header, overwriting anything the client sent. -/
def buildHeaders (reqHeaders injected : List (Str × Str)) : List (Str × Str) :=
  injected.foldl (fun acc p => objSet acc p.1 p.2) (copyReqHeaders reqHeaders)

/-- The response-relay loop (forward, lines 281-286): keep an upstream
header iff its lowercased name is in `ALLOWED_RESPONSE_HEADERS`. -/
def filterResponseHeaders (hs : List (Str × Str)) : List (Str × Str) :=
  hs.foldl
    (fun acc p =>
      if ALLOWED_RESPONSE_HEADERS.contains (lowerStr p.1) then objSet acc p.1 p.2
      else acc) []

/-! ## audit.ts data model

The `ts` timestamp string (wall-clock) is omitted; every other field of
`AuditEntry` is kept, `undefined` modelled as `none`. -/

/-- `AuditEntry` from audit.ts. -/
structure AuditEntry where
  backend : Str
  method : Str
  path : Str
  status : Option Nat
  durationMs : Option Nat
  allowed : Bool
  reason : Option Str
deriving DecidableEq

/-- Client-visible response bodies.  `json e m` stands for
`JSON.stringify({ error: e, message: m })`; `health bs p` for
`JSON.stringify({ status: 'ok', backends: bs, port: p })`; `upstream` for
the upstream body piped through unchanged. -/
inductive RespBody where
  | json (error : Str) (message : Str)
  | health (backends : List Str) (port : Nat)
  | upstream
deriving DecidableEq

/-- One HTTP response as written with `res.writeHead` + `res.end`. -/
structure HttpResponse where
  status : Nat
  headers : List (Str × Str)
  body : RespBody
deriving DecidableEq

/-- The single upstream result of a proxied request: either response
headers arrive (status, headers, elapsed ms) or the connection errors
before headers with a message (elapsed ms). -/
inductive UpstreamResult where
  | responds (status : Nat) (headers : List (Str × Str)) (durationMs : Nat)
  | fails (errMsg : Str) (durationMs : Nat)
deriving DecidableEq

/-- Terminal outcome tags of the dispatcher. -/
inductive OutcomeTag where
  | health
  | denied (code : Str)
  | forwarded
  | upstreamError
  | bodyTooLarge
deriving DecidableEq

/-- Everything observable about one handled request in the sequential
model: the audit entries written, the single response, whether
`requestModule.request` was invoked, the outbound header object (when it
was built) and the body chunks written upstream. -/
structure RequestResult where
  audits : List AuditEntry
  response : HttpResponse
  upstreamIssued : Bool
  sentHeaders : Option (List (Str × Str))
  sentChunks : List Nat
  outcome : OutcomeTag
deriving DecidableEq

/-! ## Audit entries and responses built by forward/deny -/

/-- `backend || 'none'` (JS falsy: the empty string also falls back). -/
def orNone (backend : Option Str) : Str :=
  match backend with
  | none => str "none"
  | some b => if b.isEmpty then str "none" else b

/-- The audit entry written by the body-size abort (forward, lines
320-328): status 413, no duration, `allowed: false`. -/
def audit413 (backendName method targetPath : Str) (maxBody : Nat) : AuditEntry :=
  { backend := backendName, method := method, path := targetPath
    status := some 413, durationMs := none, allowed := false
    reason := some (str "body exceeded " ++ str (toString maxBody) ++ str " bytes") }

/-- The 413 response (forward, lines 329-332). -/
def resp413 (maxBody : Nat) : HttpResponse :=
  { status := 413, headers := [(str "content-type", str "application/json")]
    body := RespBody.json (str "body_too_large")
      (str "Request body exceeds " ++ str (toString maxBody) ++ str " byte limit") }

/-- The audit entry written by the upstream-error handler (forward, lines
295-304): real error text in `reason`, status 502, duration present. -/
def audit502 (backendName method targetPath msg : Str) (dur : Nat) : AuditEntry :=
  { backend := backendName, method := method, path := targetPath
    status := some 502, durationMs := some dur, allowed := true
    reason := some (str "upstream error: " ++ msg) }

/-- The generic 502 response (forward, lines 306-309): fixed body,
independent of the error. -/
def resp502 : HttpResponse :=
  { status := 502, headers := [(str "content-type", str "application/json")]
    body := RespBody.json (str "upstream_error") (str "upstream unavailable") }

/-- The audit entry written when upstream response headers arrive
(forward, lines 270-278). -/
def auditOk (backendName method targetPath : Str) (st dur : Nat) : AuditEntry :=
  { backend := backendName, method := method, path := targetPath
    status := some st, durationMs := some dur, allowed := true, reason := none }

/-- The relayed upstream response: `proxyRes.statusCode || 502` and the
filtered header set (forward, lines 281-288). -/
def respForwarded (st : Nat) (respHeaders : List (Str × Str)) : HttpResponse :=
  { status := if st = 0 then 502 else st
    headers := filterResponseHeaders respHeaders, body := RespBody.upstream }

/-! ## Body relay (forward, lines 312-339), sequential view

The `data` handler keeps a running byte count `received`; a chunk that
pushes it past `maxBody` aborts both streams. -/

/-- Whether the relay aborts, starting from byte count `received`. -/
def bodyAborted (maxBody : Nat) : Nat → List Nat → Bool
  | _, [] => false
  | received, n :: rest =>
    if received + n > maxBody then true else bodyAborted maxBody (received + n) rest

/-- The chunks actually written upstream (`proxyReq.write`) before an
abort, starting from byte count `received`. -/
def bodySent (maxBody : Nat) : Nat → List Nat → List Nat
  | _, [] => []
  | received, n :: rest =>
    if received + n > maxBody then [] else n :: bodySent maxBody (received + n) rest

/-! ## The dispatcher (proxy.ts) -/

/-- `AuthProxy.deny` (lines 348-368): one audit entry with status 403,
`allowed: false`, the `path` field carrying whatever string the caller
passed (handleRequest always passes the raw `url`), and one 403 JSON
response. -/
def deny (code message method path : Str) (backend : Option Str) : RequestResult :=
  { audits := [{ backend := orNone backend, method := method, path := path
                 status := some 403, durationMs := none, allowed := false
                 reason := some message }]
    response := { status := 403
                  headers := [(str "content-type", str "application/json")]
                  body := RespBody.json code message }
    upstreamIssued := false, sentHeaders := none, sentChunks := []
    outcome := OutcomeTag.denied code }

/-- `AuthProxy.forward` (lines 233-343), sequential view: the outbound
header object is built, the upstream request is issued, the body chunks
are relayed under the size limit, and then exactly one of the three
terminal events fires (size abort, upstream error, upstream response).
`targetPath` is the `fullTargetPath` handleRequest passes (decoded path
plus original query string). -/
def forward (backend : BackendConfig) (backendName targetPath method : Str)
    (reqHeaders : List (Str × Str)) (chunks : List Nat) (u : UpstreamResult) :
    RequestResult :=
  let maxBody := maxBodyOf backend
  let hdrs := buildHeaders reqHeaders backend.headers
  if bodyAborted maxBody 0 chunks then
    { audits := [audit413 backendName method targetPath maxBody]
      response := resp413 maxBody, upstreamIssued := true
      sentHeaders := some hdrs, sentChunks := bodySent maxBody 0 chunks
      outcome := OutcomeTag.bodyTooLarge }
  else
    match u with
    | UpstreamResult.fails msg dur =>
      { audits := [audit502 backendName method targetPath msg dur]
        response := resp502, upstreamIssued := true, sentHeaders := some hdrs
        sentChunks := chunks, outcome := OutcomeTag.upstreamError }
    | UpstreamResult.responds st respHeaders dur =>
      { audits := [auditOk backendName method targetPath st dur]
        response := respForwarded st respHeaders, upstreamIssued := true
        sentHeaders := some hdrs, sentChunks := chunks
        outcome := OutcomeTag.forwarded }

/-- `AuthProxy.handleRequest` (lines 171-228): health-check short-circuit,
backend split, one percent-decoding pass, traversal check on the decoded
path, backend lookup, allowlist check on the decoded query-stripped path,
then forwarding with the query string re-appended. -/
def handleRequest (cfg : Config) (method url : Str)
    (reqHeaders : List (Str × Str)) (chunks : List Nat) (u : UpstreamResult) :
    RequestResult :=
  if url = str "/agentauth/health" then
    { audits := []
      response := { status := 200
                    headers := [(str "content-type", str "application/json")]
                    body := RespBody.health (cfg.backends.map Prod.fst) cfg.port }
      upstreamIssued := false, sentHeaders := none, sentChunks := []
      outcome := OutcomeTag.health }
  else
    match splitBackend url with
    | none => deny (str "invalid_path") (str "No backend in path: " ++ url) method url none
    | some (backendName, rawPath) =>
      match decodeURIComponent (beforeQuery rawPath) with
      | none =>
        deny (str "invalid_path") (str "Malformed URL encoding: " ++ rawPath) method url none
      | some targetPath =>
        if containsDotDot targetPath then
          deny (str "path_traversal") (str "Path traversal rejected: " ++ targetPath)
            method url none
        else
          match lookupBackend cfg.backends backendName with
          | none =>
            deny (str "unknown_backend") (str "Unknown backend: " ++ backendName)
              method url none
          | some backend =>
            if isPathAllowed targetPath backend.allowedPaths then
              forward backend backendName (targetPath ++ rawQuery rawPath) method
                reqHeaders chunks u
            else
              deny (str "path_denied") (str "Path not allowed: " ++ targetPath)
                method url (some backendName)

/-! ## Event-trace view of forward

The handlers registered in `forward` react to events in whatever order the
runtime delivers them; this fold over an explicit trace captures that.
`req.destroy()` / `proxyReq.destroy()` stop further events from the
destroyed stream, which is modelled by the `reqDestroyed` /
`proxyDestroyed` guards (a destroyed inbound socket emits no more `data`;
a destroyed client request never invokes its response callback). -/

/-- The per-request parameters `forward` closes over. -/
structure FwdCtx where
  backendName : Str
  method : Str
  targetPath : Str
  maxBody : Nat
deriving DecidableEq

/-- Mutable state touched by the handlers in `forward`. -/
structure FwdState where
  received : Nat
  headersSent : Bool
  reqDestroyed : Bool
  proxyDestroyed : Bool
  audits : List AuditEntry
  writes : List HttpResponse
deriving DecidableEq

/-- State before any event. -/
def initFwdState : FwdState :=
  { received := 0, headersSent := false, reqDestroyed := false
    proxyDestroyed := false, audits := [], writes := [] }

/-- Events the Node runtime can deliver to the handlers in `forward`. -/
inductive FwdEvent where
  | data (n : Nat)
  | bodyEnd
  | upstreamResponse (status : Nat) (headers : List (Str × Str)) (durationMs : Nat)
  | upstreamError (msg : Str) (durationMs : Nat)
deriving DecidableEq

/-- Whether an event comes from the upstream client request (`proxyReq`
emits at most one of `response` / `error` before headers). -/
def isUpstreamEvent : FwdEvent → Bool
  | FwdEvent.upstreamResponse _ _ _ => true
  | FwdEvent.upstreamError _ _ => true
  | _ => false

/-- One handler invocation, straight from the handler bodies in `forward`:
the `data` handler counts bytes and aborts over the limit (writing the 413
only if no headers were sent); the response callback audits and writes
unconditionally; the error handler audits and writes the generic 502 only
if no headers were sent. -/
def stepFwd (ctx : FwdCtx) (s : FwdState) (e : FwdEvent) : FwdState :=
  match e with
  | FwdEvent.data n =>
    if s.reqDestroyed then s
    else
      let received := s.received + n
      if received > ctx.maxBody then
        { s with
          received := received
          reqDestroyed := true
          proxyDestroyed := true
          audits := s.audits ++ [audit413 ctx.backendName ctx.method ctx.targetPath ctx.maxBody]
          writes := s.writes ++ (if s.headersSent then [] else [resp413 ctx.maxBody])
          headersSent := true }
      else { s with received := received }
  | FwdEvent.bodyEnd => s
  | FwdEvent.upstreamResponse st hdrs dur =>
    if s.proxyDestroyed then s
    else
      { s with
        audits := s.audits ++ [auditOk ctx.backendName ctx.method ctx.targetPath st dur]
        writes := s.writes ++ [respForwarded st hdrs]
        headersSent := true }
  | FwdEvent.upstreamError msg dur =>
    { s with
      audits := s.audits ++ [audit502 ctx.backendName ctx.method ctx.targetPath msg dur]
      writes := s.writes ++ (if s.headersSent then [] else [resp502])
      headersSent := true }


/-- Run the handlers over a whole event trace. -/
def runFwd (ctx : FwdCtx) (events : List FwdEvent) : FwdState :=
  events.foldl (stepFwd ctx) initFwdState

/-! ## Concrete fixtures for counterexamples and witnesses -/

/-- A backend with no path restrictions and default body limit. -/
def be0 : BackendConfig :=
  { target := str "https://upstream.example", headers := []
    allowedPaths := none, maxBodyBytes := none }

/-- A backend carrying one credential header. -/
def be1 : BackendConfig :=
  { target := str "https://api.example", headers := [(str "x-api-key", str "secret")]
    allowedPaths := some [str "/v1/*"], maxBodyBytes := some 10 }

/-- A one-backend configuration. -/
def cfg0 : Config := { port := 9999, backends := [(str "b", be0)] }

/-- A forward context with a 10-byte body limit. -/
def ctx0 : FwdCtx :=
  { backendName := str "b", method := str "POST", targetPath := str "/x", maxBody := 10 }

/-- An upstream connection error racing the inbound body: the error
arrives first, then a chunk that overflows the limit. -/
def trace0 : List FwdEvent :=
  [FwdEvent.upstreamError (str "connect ECONNREFUSED 93.184.216.34:443") 3,
   FwdEvent.data 11]

/-- Invariant of the event machine, relative to whether an upstream event
(`response` or `error`) has already been processed: the number of response
writes tracks `headersSent`, a response has been written iff some terminal
transition was audited, and when headers are sent without the upstream
request having been destroyed the terminal was an upstream event. -/
def fwdInv (s : FwdState) (seen : Bool) : Prop :=
  s.writes.length = (if s.headersSent then 1 else 0) ∧
  (s.headersSent = true ↔ s.audits ≠ []) ∧
  (s.headersSent = true → s.proxyDestroyed = false → seen = true)

/- ───────────────────────── theorems ───────────────────────── -/

/-! ## JS object lemmas -/

theorem objGet_objSet_self (m : List (Str × Str)) (k v : Str) :
    objGet (objSet m k v) k = some v := by
  induction m with
  | nil => simp [objSet, objGet]
  | cons p rest ih =>
    by_cases h : p.1 = k
    · simp [objSet, h, objGet]
    · simp [objSet, h, objGet, ih]

theorem objGet_objSet_ne (m : List (Str × Str)) (k v k2 : Str) (h : k2 ≠ k) :
    objGet (objSet m k v) k2 = objGet m k2 := by
  induction m with
  | nil => simp [objSet, objGet, Ne.symm h]
  | cons p rest ih =>
    by_cases hp : p.1 = k
    · simp [objSet, hp, objGet, Ne.symm h]
    · simp [objSet, hp, objGet, ih]

theorem objSet_not_mem (m : List (Str × Str)) (k v : Str)
    (h : ∀ q ∈ m, q.1 ≠ k) : objSet m k v = m ++ [(k, v)] := by
  induction m with
  | nil => rfl
  | cons p rest ih =>
    have hp : p.1 ≠ k := h p (by simp)
    simp [objSet, hp, ih (fun q hq => h q (by simp [hq]))]

theorem objGet_foldl_objSet_not_mem (l : List (Str × Str)) (m : List (Str × Str))
    (k : Str) (h : k ∉ l.map Prod.fst) :
    objGet (l.foldl (fun acc p => objSet acc p.1 p.2) m) k = objGet m k := by
  induction l generalizing m with
  | nil => rfl
  | cons p rest ih =>
    have h1 : k ≠ p.1 := by
      intro hh
      exact h (by simp [hh])
    rw [List.foldl_cons, ih _ (fun hh => h (by simp [hh])),
      objGet_objSet_ne _ _ _ _ h1]

theorem objGet_foldl_objSet_mem (l : List (Str × Str)) (m : List (Str × Str))
    (k v : Str) (hnd : (l.map Prod.fst).Nodup) (hkv : (k, v) ∈ l) :
    objGet (l.foldl (fun acc p => objSet acc p.1 p.2) m) k = some v := by
  induction l generalizing m with
  | nil => cases hkv
  | cons p rest ih =>
    rw [List.foldl_cons]
    rcases List.mem_cons.mp hkv with heq | hmem
    · have hnotin : k ∉ rest.map Prod.fst := by
        have := (List.nodup_cons.mp hnd).1
        rw [← heq] at this
        exact this
      rw [objGet_foldl_objSet_not_mem rest _ k hnotin, ← heq, objGet_objSet_self]
    · exact ih _ (List.nodup_cons.mp hnd).2 hmem

theorem foldl_objSetIf_eq_filter (pred : Str × Str → Bool) :
    ∀ (hs acc : List (Str × Str)),
      (∀ p ∈ hs, ∀ q ∈ acc, p.1 ≠ q.1) → (hs.map Prod.fst).Nodup →
      hs.foldl (fun acc p => if pred p then objSet acc p.1 p.2 else acc) acc
        = acc ++ hs.filter pred := by
  intro hs
  induction hs with
  | nil => intro acc _ _; simp
  | cons p rest ih =>
    intro acc hdisj hnd
    rw [List.foldl_cons]
    have hrestdisj : ∀ q ∈ rest, ∀ r ∈ acc ++ [p], q.1 ≠ r.1 := by
      intro q hq r hr
      rcases List.mem_append.mp hr with hr1 | hr2
      · exact hdisj q (by simp [hq]) r hr1
      · have hne : p.1 ∉ rest.map Prod.fst := (List.nodup_cons.mp hnd).1
        have : q.1 ≠ p.1 := by
          intro hh
          exact hne (by simpa [← hh] using List.mem_map_of_mem Prod.fst hq)
        simpa [List.mem_singleton.mp hr2] using this
    by_cases hp : pred p
    · rw [if_pos hp, objSet_not_mem acc p.1 p.2
        (fun q hq => (hdisj p (by simp) q hq).symm)]
      rw [ih (acc ++ [p]) hrestdisj (List.nodup_cons.mp hnd).2]
      simp [List.filter_cons, hp]
    · rw [if_neg hp]
      rw [ih acc (fun q hq r hr => hdisj q (by simp [hq]) r hr) (List.nodup_cons.mp hnd).2]
      simp [List.filter_cons, hp]

theorem objGet_filter_keyPred (f : Str → Bool) (l : List (Str × Str)) (k : Str) :
    objGet (l.filter (fun p => f p.1)) k = if f k then objGet l k else none := by
  induction l with
  | nil => simp [objGet]
  | cons p rest ih =>
    by_cases hpk : p.1 = k
    · by_cases hf : f p.1
      · simp [List.filter_cons, hf, objGet, hpk, hpk ▸ hf]
      · have hfk : ¬ f k := by
          rw [← hpk]
          exact hf
        simp [List.filter_cons, hf, objGet, hpk, ih, hfk]
    · by_cases hf : f p.1
      · simp [List.filter_cons, hf, objGet, hpk, ih]
      · simp [List.filter_cons, hf, objGet, hpk, ih]

theorem copyReqHeaders_eq_filter (req : List (Str × Str))
    (hnd : (req.map Prod.fst).Nodup) :
    copyReqHeaders req =
      req.filter (fun p => !(p.1 == str "host" || p.1 == str "connection")) := by
  have h := foldl_objSetIf_eq_filter
    (fun p => !(p.1 == str "host" || p.1 == str "connection")) req [] (by simp) hnd
  simpa [copyReqHeaders] using h

theorem filterResponseHeaders_eq_filter (hs : List (Str × Str))
    (hnd : (hs.map Prod.fst).Nodup) :
    filterResponseHeaders hs =
      hs.filter (fun p => ALLOWED_RESPONSE_HEADERS.contains (lowerStr p.1)) := by
  have h := foldl_objSetIf_eq_filter
    (fun p => ALLOWED_RESPONSE_HEADERS.contains (lowerStr p.1)) hs [] (by simp) hnd
  simpa [filterResponseHeaders] using h

theorem objGet_copyReqHeaders (req : List (Str × Str))
    (hnd : (req.map Prod.fst).Nodup) (k : Str) :
    objGet (copyReqHeaders req) k =
      if k = str "host" ∨ k = str "connection" then none else objGet req k := by
  rw [copyReqHeaders_eq_filter req hnd]
  have h := objGet_filter_keyPred
    (fun x => !(x == str "host" || x == str "connection")) req k
  refine Eq.trans h ?_
  by_cases hk : k = str "host" ∨ k = str "connection"
  · rcases hk with hk | hk <;> simp [hk]
  · push_neg at hk
    simp [hk.1, hk.2]

/-- C1: for every forwarded request, each configured backend header
`(k, v)` ends up in the upstream header object with exactly the value `v`
no matter what the client sent for `k`; every other inbound header except
`host` and `connection` is copied through unchanged (and those two are
dropped).  Key sets are assumed duplicate-free, as JS object key sets
are. -/
theorem injected_headers_override (reqHeaders injected : List (Str × Str))
    (hreq : (reqHeaders.map Prod.fst).Nodup)
    (hinj : (injected.map Prod.fst).Nodup) :
    (∀ k v, (k, v) ∈ injected →
      objGet (buildHeaders reqHeaders injected) k = some v) ∧
    (∀ k, k ∉ injected.map Prod.fst →
      objGet (buildHeaders reqHeaders injected) k =
        if k = str "host" ∨ k = str "connection" then none
        else objGet reqHeaders k) := by
  constructor
  · intro k v hkv
    exact objGet_foldl_objSet_mem injected (copyReqHeaders reqHeaders) k v hinj hkv
  · intro k hk
    rw [buildHeaders, objGet_foldl_objSet_not_mem injected _ k hk,
      objGet_copyReqHeaders reqHeaders hreq k]

theorem injected_headers_override_witness :
    objGet (buildHeaders
        [(str "host", str "localhost:9999"), (str "x-api-key", str "client-forged"),
         (str "accept", str "application/json")]
        [(str "x-api-key", str "secret")]) (str "x-api-key")
      = some (str "secret") ∧
    objGet (buildHeaders
        [(str "host", str "localhost:9999"), (str "x-api-key", str "client-forged"),
         (str "accept", str "application/json")]
        [(str "x-api-key", str "secret")]) (str "accept")
      = some (str "application/json") := by
  constructor
  · exact (injected_headers_override _ _ (by decide) (by decide)).1 _ _ (by decide)
  · exact ((injected_headers_override _ _ (by decide) (by decide)).2 _
      (by decide)).trans (by decide)

theorem patMatch_iff (p pat : Str) :
    patMatch p pat = true ↔
      (pat.getLast? = some '*' ∧ pat.dropLast <+: p) ∨ pat = p := by
  unfold patMatch
  by_cases h : pat.getLast? = some '*'
  · rw [if_pos h]
    rw [ List.isPrefixOf_iff_prefix]
    constructor
    · intro hp
      exact Or.inl ⟨h, hp⟩
    · rintro (⟨_, hp⟩ | rfl)
      · exact hp
      · exact List.dropLast_prefix pat
  · rw [if_neg h]
    rw [beq_iff_eq]
    constructor
    · intro he
      exact Or.inr he
    · rintro (⟨h2, _⟩ | rfl)
      · exact absurd h2 h
      · rfl

/-- C5: the allowlist check passes iff the pattern list is empty (or
absent), or some pattern either ends in `*` and the decoded path starts
with the pattern minus the `*`, or equals the path exactly; in particular
`/repos/foo/bar` matches `["/repos/foo/*"]` while `/repos/food/bar` does
not. -/
theorem isPathAllowed_spec :
    (∀ (p : Str) (pats : List Str),
      isPathAllowed p (some pats) = true ↔
        pats = [] ∨ ∃ pat, pat ∈ pats ∧
          ((pat.getLast? = some '*' ∧ pat.dropLast <+: p) ∨ pat = p)) ∧
    (∀ p : Str, isPathAllowed p none = true) ∧
    isPathAllowed (str "/repos/foo/bar") (some [str "/repos/foo/*"]) = true ∧
    isPathAllowed (str "/repos/food/bar") (some [str "/repos/foo/*"]) = false := by
  refine ⟨?_, fun p => rfl, by decide, by decide⟩
  intro p pats
  cases pats with
  | nil => simp [isPathAllowed]
  | cons q qs =>
    rw [isPathAllowed]
    simp only [List.isEmpty_cons, if_false, Bool.false_eq_true, List.any_eq_true]
    constructor
    · rintro ⟨pat, hmem, hmatch⟩
      exact Or.inr ⟨pat, hmem, (patMatch_iff p pat).mp hmatch⟩
    · rintro (hnil | ⟨pat, hmem, hside⟩)
      · cases hnil
      · exact ⟨pat, hmem, (patMatch_iff p pat).mpr hside⟩

theorem isPathAllowed_spec_witness :
    isPathAllowed (str "/repos/foo/bar") (some [str "/repos/foo/*"]) = true :=
  isPathAllowed_spec.2.2.1

/-- C6: the header set relayed to the client contains exactly the upstream
headers whose lowercased name is in the fixed eight-element allowlist;
every other upstream header is dropped.  Upstream header keys are
duplicate-free (Node parses them into an object). -/
theorem response_header_allowlist (hs : List (Str × Str))
    (hnd : (hs.map Prod.fst).Nodup) (k v : Str) :
    (k, v) ∈ filterResponseHeaders hs ↔
      (k, v) ∈ hs ∧ lowerStr k ∈ ALLOWED_RESPONSE_HEADERS := by
  rw [filterResponseHeaders_eq_filter hs hnd, List.mem_filter]
  simp [List.contains]

theorem response_header_allowlist_witness :
    (str "content-type", str "text/plain") ∈ filterResponseHeaders
      [(str "content-type", str "text/plain"), (str "x-request-id", str "abc")] ∧
    ((str "x-request-id", str "abc") ∈ filterResponseHeaders
      [(str "content-type", str "text/plain"), (str "x-request-id", str "abc")] →
      False) := by
  constructor
  · exact (response_header_allowlist _ (by decide) _ _).mpr ⟨by decide, by decide⟩
  · intro h
    exact absurd ((response_header_allowlist _ (by decide) _ _).mp h).2 (by decide)

/-! ## Body-relay lemmas -/

theorem bodyAborted_iff (maxBody : Nat) :
    ∀ (chunks : List Nat) (received : Nat), received ≤ maxBody →
      (bodyAborted maxBody received chunks = true ↔
        maxBody < received + chunks.sum) := by
  intro chunks
  induction chunks with
  | nil =>
    intro r hr
    simp [bodyAborted]
    omega
  | cons n rest ih =>
    intro r hr
    by_cases h : r + n > maxBody
    · simp [bodyAborted, h, List.sum_cons]
      omega
    · rw [bodyAborted, if_neg h, ih (r + n) (by omega), List.sum_cons]
      constructor <;> intro <;> omega

theorem bodySent_spec (maxBody : Nat) :
    ∀ (chunks : List Nat) (received : Nat), received ≤ maxBody →
      bodyAborted maxBody received chunks = true →
      ∃ pre n post, chunks = pre ++ n :: post ∧
        bodySent maxBody received chunks = pre ∧
        received + pre.sum ≤ maxBody ∧ maxBody < received + pre.sum + n := by
  intro chunks
  induction chunks with
  | nil =>
    intro r _ hab
    simp [bodyAborted] at hab
  | cons n rest ih =>
    intro r hr hab
    by_cases h : r + n > maxBody
    · refine ⟨[], n, rest, rfl, ?_, by simpa using hr, by simpa using h⟩
      rw [bodySent, if_pos h]
    · have hab2 : bodyAborted maxBody (r + n) rest = true := by
        rw [bodyAborted, if_neg h] at hab
        exact hab
      obtain ⟨pre, c, post, hchunks, hsent, hle, hgt⟩ := ih (r + n) (by omega) hab2
      refine ⟨n :: pre, c, post, by simp [hchunks], ?_, ?_, ?_⟩
      · rw [bodySent, if_neg h, hsent]
      · simp [List.sum_cons]
        omega
      · simp [List.sum_cons]
        omega

/-- The three possible terminal shapes of the sequential forward phase. -/
theorem forward_outcome (be : BackendConfig) (bn tp m : Str)
    (rh : List (Str × Str)) (ch : List Nat) (u : UpstreamResult) :
    (forward be bn tp m rh ch u).outcome = OutcomeTag.bodyTooLarge ∨
    (forward be bn tp m rh ch u).outcome = OutcomeTag.upstreamError ∨
    (forward be bn tp m rh ch u).outcome = OutcomeTag.forwarded := by
  unfold forward
  by_cases hb : bodyAborted (maxBodyOf be) 0 ch
  · simp [hb]
  · cases u <;> simp [hb]

/-- Every forward-phase audit entry carries the full target path. -/
theorem forward_audits_path (be : BackendConfig) (bn tp m : Str)
    (rh : List (Str × Str)) (ch : List Nat) (u : UpstreamResult) :
    (forward be bn tp m rh ch u).audits.map (fun e => e.path) = [tp] := by
  unfold forward
  by_cases hb : bodyAborted (maxBodyOf be) 0 ch
  · simp [hb, audit413]
  · cases u <;> simp [hb, audit502, auditOk]

/-- C4 (includes the default limit value): a cumulative body larger than
the backend's `maxBodyBytes` (default 10,485,760) aborts at the first
offending chunk with a 413 response and a status-413 `allowed: false`
audit entry, forwarding upstream exactly the chunks before the offending
one; a body summing to exactly the limit is forwarded. -/
theorem body_limit_spec :
    DEFAULT_MAX_BODY_BYTES = 10485760 ∧
    (∀ (be : BackendConfig) (bn tp m : Str) (rh : List (Str × Str))
        (chunks : List Nat) (u : UpstreamResult),
      maxBodyOf be < chunks.sum →
      (forward be bn tp m rh chunks u).outcome = OutcomeTag.bodyTooLarge ∧
      (forward be bn tp m rh chunks u).response = resp413 (maxBodyOf be) ∧
      (forward be bn tp m rh chunks u).response.status = 413 ∧
      (forward be bn tp m rh chunks u).audits.map (fun e => (e.status, e.allowed))
        = [(some 413, false)] ∧
      ∃ pre n post, chunks = pre ++ n :: post ∧
        (forward be bn tp m rh chunks u).sentChunks = pre ∧
        pre.sum ≤ maxBodyOf be ∧ maxBodyOf be < pre.sum + n) ∧
    (∀ (be : BackendConfig) (bn tp m : Str) (rh : List (Str × Str))
        (chunks : List Nat) (st : Nat) (hs : List (Str × Str)) (dur : Nat),
      chunks.sum = maxBodyOf be →
      (forward be bn tp m rh chunks (UpstreamResult.responds st hs dur)).outcome
        = OutcomeTag.forwarded) := by
  refine ⟨by decide, ?_, ?_⟩
  · intro be bn tp m rh chunks u hsum
    have hab : bodyAborted (maxBodyOf be) 0 chunks = true :=
      (bodyAborted_iff (maxBodyOf be) chunks 0 (Nat.zero_le _)).mpr (by omega)
    obtain ⟨pre, n, post, hchunks, hsent, hle, hgt⟩ :=
      bodySent_spec (maxBodyOf be) chunks 0 (Nat.zero_le _) hab
    refine ⟨?_, ?_, ?_, ?_, pre, n, post, hchunks, ?_, by omega, by omega⟩
    · unfold forward
      simp [hab]
    · unfold forward
      simp [hab]
    · unfold forward
      simp [hab, resp413]
    · unfold forward
      simp [hab, audit413]
    · unfold forward
      simp [hab, hsent]
  · intro be bn tp m rh chunks st hs dur hsum
    have hab : bodyAborted (maxBodyOf be) 0 chunks = false := by
      have := (bodyAborted_iff (maxBodyOf be) chunks 0 (Nat.zero_le _))
      rcases hb : bodyAborted (maxBodyOf be) 0 chunks with _ | _
      · rfl
      · exact absurd (this.mp hb) (by omega)
    unfold forward
    simp [hab]

theorem body_limit_spec_witness :
    (forward be1 (str "b") (str "/x") (str "POST") [] [4, 6]
      (UpstreamResult.responds 200 [] 1)).outcome = OutcomeTag.forwarded :=
  body_limit_spec.2.2 be1 (str "b") (str "/x") (str "POST") [] [4, 6] 200 [] 1
    (by decide)

/-- C3: when the upstream connection fails before response headers arrive
(and the body limit was not hit), the client gets the fixed 502 response
whose JSON body says only `upstream unavailable`; the real error text goes
exclusively into the audit entry's `reason`; and the client-visible
response is identical across any two runs differing only in the upstream
error detail. -/
theorem upstream_error_sanitized (be : BackendConfig) (bn tp m : Str)
    (rh : List (Str × Str)) (chunks : List Nat) (msg : Str) (dur : Nat) :
    (bodyAborted (maxBodyOf be) 0 chunks = false →
      (forward be bn tp m rh chunks (UpstreamResult.fails msg dur)).response
        = resp502 ∧
      resp502.status = 502 ∧
      resp502.body = RespBody.json (str "upstream_error") (str "upstream unavailable") ∧
      (forward be bn tp m rh chunks (UpstreamResult.fails msg dur)).audits.map
        (fun e => e.reason) = [some (str "upstream error: " ++ msg)]) ∧
    (∀ (msg2 : Str) (dur2 : Nat),
      (forward be bn tp m rh chunks (UpstreamResult.fails msg dur)).response =
        (forward be bn tp m rh chunks (UpstreamResult.fails msg2 dur2)).response) := by
  constructor
  · intro hab
    refine ⟨?_, rfl, rfl, ?_⟩
    · unfold forward
      simp [hab]
    · unfold forward
      simp [hab, audit502]
  · intro msg2 dur2
    unfold forward
    by_cases hab : bodyAborted (maxBodyOf be) 0 chunks <;> simp [hab]

theorem upstream_error_sanitized_witness :
    (forward be0 (str "b") (str "/x") (str "GET") [] []
      (UpstreamResult.fails (str "connect ECONNREFUSED api.example:443") 7)).response
      = resp502 :=
  ((upstream_error_sanitized be0 (str "b") (str "/x") (str "GET") [] []
    (str "connect ECONNREFUSED api.example:443") 7).1 (by decide)).1

/-! ## Dispatcher case analysis -/

/-- `handleRequest` terminates in exactly one of three shapes:
the health short-circuit, one of the five `deny` calls (always with the
raw `url` as the audited path), or a `forward` call under the routing
hypotheses. -/
theorem handleRequest_cases (cfg : Config) (m url : Str)
    (rh : List (Str × Str)) (ch : List Nat) (u : UpstreamResult) :
    (url = str "/agentauth/health" ∧
      (handleRequest cfg m url rh ch u).outcome = OutcomeTag.health) ∨
    (∃ c msg b, handleRequest cfg m url rh ch u = deny c msg m url b) ∨
    (∃ bn rawPath tp be,
      splitBackend url = some (bn, rawPath) ∧
      decodeURIComponent (beforeQuery rawPath) = some tp ∧
      containsDotDot tp = false ∧
      lookupBackend cfg.backends bn = some be ∧
      isPathAllowed tp be.allowedPaths = true ∧
      handleRequest cfg m url rh ch u =
        forward be bn (tp ++ rawQuery rawPath) m rh ch u) := by
  by_cases hurl : url = str "/agentauth/health"
  · left
    refine ⟨hurl, ?_⟩
    unfold handleRequest
    rw [if_pos hurl]
  · right
    unfold handleRequest
    rw [if_neg hurl]
    split
    · exact Or.inl ⟨_, _, none, rfl⟩
    · next bn rawPath heqsb =>
      split
      · exact Or.inl ⟨_, _, none, rfl⟩
      · next tp heqdec =>
        split
        · exact Or.inl ⟨_, _, none, rfl⟩
        · next hdot =>
          split
          · exact Or.inl ⟨_, _, none, rfl⟩
          · next be heqlb =>
            split
            · next hallow =>
              exact Or.inr ⟨bn, rawPath, tp, be, heqsb, heqdec,
                eq_false_of_ne_true hdot, heqlb, hallow, rfl⟩
            · exact Or.inl ⟨_, _, some bn, rfl⟩

/-- Evaluation of `handleRequest` once the request-target has been split
and decoded. -/
theorem handleRequest_routed (cfg : Config) (m url : Str)
    (rh : List (Str × Str)) (ch : List Nat) (u : UpstreamResult)
    (bn rawPath tp : Str)
    (hne : url ≠ str "/agentauth/health")
    (hsplit : splitBackend url = some (bn, rawPath))
    (hdec : decodeURIComponent (beforeQuery rawPath) = some tp) :
    handleRequest cfg m url rh ch u =
      (if containsDotDot tp then
        deny (str "path_traversal") (str "Path traversal rejected: " ++ tp)
          m url none
      else
        match lookupBackend cfg.backends bn with
        | none =>
          deny (str "unknown_backend") (str "Unknown backend: " ++ bn) m url none
        | some backend =>
          if isPathAllowed tp backend.allowedPaths then
            forward backend bn (tp ++ rawQuery rawPath) m rh ch u
          else
            deny (str "path_denied") (str "Path not allowed: " ++ tp) m url
              (some bn)) := by
  unfold handleRequest
  rw [if_neg hne]
  simp only [hsplit, hdec]

/-- C2 counterexample: the double-encoded traversal path
`/b/%252e%252e/x` is not denied as `path_traversal` — a single
`decodeURIComponent` pass yields `/%2e%2e/x`, which contains no literal
`..`, so the request is forwarded and an upstream request is issued. -/
theorem path_traversal_double_encoding_cex :
    (handleRequest cfg0 (str "GET") (str "/b/%252e%252e/x") [] []
      (UpstreamResult.responds 200 [] 1)).outcome = OutcomeTag.forwarded ∧
    (handleRequest cfg0 (str "GET") (str "/b/%252e%252e/x") [] []
      (UpstreamResult.responds 200 [] 1)).upstreamIssued = true := by
  exact ⟨by decide, by decide⟩

/-- C2 (amended): whenever the single percent-decoding pass of the path
succeeds and the decoded path contains `..` — which covers the literal,
`%2e%2e` and mixed-case single encodings — the dispatcher denies with
`path_traversal` and never issues an upstream request; double-encoded
forms survive the single decoding pass and are not caught (see the
counterexample). -/
theorem path_traversal_single_decode (cfg : Config) (m url : Str)
    (rh : List (Str × Str)) (chunks : List Nat) (u : UpstreamResult)
    (bn rawPath tp : Str)
    (hne : url ≠ str "/agentauth/health")
    (hsplit : splitBackend url = some (bn, rawPath))
    (hdec : decodeURIComponent (beforeQuery rawPath) = some tp)
    (hdot : containsDotDot tp = true) :
    (handleRequest cfg m url rh chunks u).outcome
      = OutcomeTag.denied (str "path_traversal") ∧
    (handleRequest cfg m url rh chunks u).upstreamIssued = false := by
  rw [handleRequest_routed cfg m url rh chunks u bn rawPath tp hne hsplit hdec,
    if_pos hdot]
  exact ⟨rfl, rfl⟩

theorem path_traversal_single_decode_witness :
    (handleRequest cfg0 (str "GET") (str "/b/%2E%2e/x") [] []
      (UpstreamResult.responds 200 [] 1)).outcome
      = OutcomeTag.denied (str "path_traversal") ∧
    (handleRequest cfg0 (str "GET") (str "/b/%2E%2e/x") [] []
      (UpstreamResult.responds 200 [] 1)).upstreamIssued = false :=
  path_traversal_single_decode cfg0 (str "GET") (str "/b/%2E%2e/x") [] []
    (UpstreamResult.responds 200 [] 1) (str "b") (str "/%2E%2e/x") (str "/../x")
    (by decide) (by decide) (by decide) (by decide)

/-- C10: the health branch is taken iff the raw request-target equals
`/agentauth/health` exactly, for every HTTP method; it returns 200 with
the `{status: "ok", backends, port}` JSON body, writes no audit entry and
issues no upstream request; any other target — including
`/agentauth/health?x=1` — goes through ordinary backend routing
instead. -/
theorem health_check_spec (cfg : Config) (method : Str)
    (rh : List (Str × Str)) (chunks : List Nat) (u : UpstreamResult) :
    (∀ url, (handleRequest cfg method url rh chunks u).outcome = OutcomeTag.health ↔
      url = str "/agentauth/health") ∧
    handleRequest cfg method (str "/agentauth/health") rh chunks u =
      { audits := []
        response :=
          { status := 200
            headers := [(str "content-type", str "application/json")]
            body := RespBody.health (cfg.backends.map Prod.fst) cfg.port }
        upstreamIssued := false
        sentHeaders := none
        sentChunks := []
        outcome := OutcomeTag.health } := by
  constructor
  · intro url
    constructor
    · intro h
      rcases handleRequest_cases cfg method url rh chunks u with
        ⟨hurl, _⟩ | ⟨c, msg, b, heq⟩ | ⟨bn, rp, tp, be, _, _, _, _, _, heq⟩
      · exact hurl
      · rw [heq] at h
        simp [deny] at h
      · rw [heq] at h
        rcases forward_outcome be bn (tp ++ rawQuery rp) method rh chunks u with
          h2 | h2 | h2 <;>
          (rw [h2] at h; exact OutcomeTag.noConfusion h)
    · intro h
      subst h
      unfold handleRequest
      rw [if_pos rfl]
  · unfold handleRequest
    rw [if_pos rfl]

theorem health_check_spec_witness :
    handleRequest cfg0 (str "POST") (str "/agentauth/health") [] []
      (UpstreamResult.responds 200 [] 1) =
      { audits := []
        response :=
          { status := 200
            headers := [(str "content-type", str "application/json")]
            body := RespBody.health [str "b"] 9999 }
        upstreamIssued := false
        sentHeaders := none
        sentChunks := []
        outcome := OutcomeTag.health } :=
  (health_check_spec cfg0 (str "POST") [] [] (UpstreamResult.responds 200 [] 1)).2

/-- A denied outcome always comes from one of the `deny` calls, with the
raw `url` as the audited path. -/
theorem handleRequest_denied_eq_deny (cfg : Config) (m url : Str)
    (rh : List (Str × Str)) (ch : List Nat) (u : UpstreamResult) (c : Str)
    (h : (handleRequest cfg m url rh ch u).outcome = OutcomeTag.denied c) :
    ∃ msg b, handleRequest cfg m url rh ch u = deny c msg m url b := by
  rcases handleRequest_cases cfg m url rh ch u with
    ⟨_, hh⟩ | ⟨c2, msg, b, heq⟩ | ⟨bn, rp, tp, be, _, _, _, _, _, heq⟩
  · rw [hh] at h
    exact OutcomeTag.noConfusion h
  · refine ⟨msg, b, ?_⟩
    have hc : c2 = c := by
      rw [heq] at h
      simpa [deny] using h
    rw [heq, hc]
  · rw [heq] at h
    rcases forward_outcome be bn (tp ++ rawQuery rp) m rh ch u with h2 | h2 | h2 <;>
      (rw [h2] at h; exact OutcomeTag.noConfusion h)

/-- C8 counterexample: a denial that never reaches the upstream carries
`status = 403` in its audit entry (the claim says `status` is absent), and
a body-too-large abort — an outcome that does reach the upstream — has no
`durationMs` (the claim says it is present). -/
theorem denial_status_present_cex :
    (handleRequest cfg0 (str "GET") (str "/nope/x") [] []
      (UpstreamResult.responds 200 [] 1)).outcome
      = OutcomeTag.denied (str "unknown_backend") ∧
    (handleRequest cfg0 (str "GET") (str "/nope/x") [] []
      (UpstreamResult.responds 200 [] 1)).audits.map (fun e => e.status)
      = [some 403] ∧
    (forward be1 (str "b") (str "/x") (str "POST") [] [11]
      (UpstreamResult.responds 200 [] 1)).outcome = OutcomeTag.bodyTooLarge ∧
    (forward be1 (str "b") (str "/x") (str "POST") [] [11]
      (UpstreamResult.responds 200 [] 1)).audits.map (fun e => e.durationMs)
      = [none] := by
  exact ⟨by decide, by decide, by decide, by decide⟩

/-- C8 (amended): denial outcomes that never reach the upstream audit
`status = 403` (present, not absent) and no `durationMs`; forwarded and
upstream-error outcomes audit both `status` and `durationMs`; the
body-too-large outcome audits `status = 413` but no `durationMs`. -/
theorem audit_status_duration_fields :
    (∀ (cfg : Config) (m url : Str) (rh : List (Str × Str)) (ch : List Nat)
        (u : UpstreamResult) (c : Str),
      (handleRequest cfg m url rh ch u).outcome = OutcomeTag.denied c →
      (handleRequest cfg m url rh ch u).audits.map (fun e => (e.status, e.durationMs))
        = [(some 403, (none : Option Nat))]) ∧
    (∀ (be : BackendConfig) (bn tp m : Str) (rh : List (Str × Str)) (ch : List Nat)
        (st : Nat) (hs : List (Str × Str)) (dur : Nat),
      bodyAborted (maxBodyOf be) 0 ch = false →
      (forward be bn tp m rh ch (UpstreamResult.responds st hs dur)).audits.map
        (fun e => (e.status, e.durationMs)) = [(some st, some dur)]) ∧
    (∀ (be : BackendConfig) (bn tp m : Str) (rh : List (Str × Str)) (ch : List Nat)
        (msg : Str) (dur : Nat),
      bodyAborted (maxBodyOf be) 0 ch = false →
      (forward be bn tp m rh ch (UpstreamResult.fails msg dur)).audits.map
        (fun e => (e.status, e.durationMs)) = [(some 502, some dur)]) ∧
    (∀ (be : BackendConfig) (bn tp m : Str) (rh : List (Str × Str)) (ch : List Nat)
        (u : UpstreamResult),
      bodyAborted (maxBodyOf be) 0 ch = true →
      (forward be bn tp m rh ch u).audits.map (fun e => (e.status, e.durationMs))
        = [(some 413, (none : Option Nat))]) := by
  refine ⟨?_, ?_, ?_, ?_⟩
  · intro cfg m url rh ch u c h
    obtain ⟨msg, b, heq⟩ := handleRequest_denied_eq_deny cfg m url rh ch u c h
    rw [heq]
    rfl
  · intro be bn tp m rh ch st hs dur hab
    unfold forward
    simp [hab, auditOk]
  · intro be bn tp m rh ch msg dur hab
    unfold forward
    simp [hab, audit502]
  · intro be bn tp m rh ch u hab
    unfold forward
    simp [hab, audit413]

theorem audit_status_duration_fields_witness :
    (forward be0 (str "b") (str "/x") (str "GET") [] []
      (UpstreamResult.responds 200 [] 9)).audits.map
      (fun e => (e.status, e.durationMs)) = [(some 200, some 9)] :=
  audit_status_duration_fields.2.1 be0 (str "b") (str "/x") (str "GET") [] []
    200 [] 9 (by decide)

/-- C9 counterexample: a denied request is audited with the raw
request-target — still percent-encoded and with its query string — and a
forwarded request is audited with the query string re-appended; both
contradict "fully percent-decoded with the query stripped". -/
theorem audit_path_raw_on_denial_cex :
    (handleRequest cfg0 (str "GET") (str "/nope/a%41?q=1") [] []
      (UpstreamResult.responds 200 [] 1)).audits.map (fun e => e.path)
      = [str "/nope/a%41?q=1"] ∧
    (str "/nope/a%41?q=1").contains '?' = true ∧
    (str "/nope/a%41?q=1").contains '%' = true ∧
    (handleRequest cfg0 (str "GET") (str "/b/msgs%41?q=1") [] []
      (UpstreamResult.responds 200 [] 1)).outcome = OutcomeTag.forwarded ∧
    (handleRequest cfg0 (str "GET") (str "/b/msgs%41?q=1") [] []
      (UpstreamResult.responds 200 [] 1)).audits.map (fun e => e.path)
      = [str "/msgsA?q=1"] ∧
    (str "/msgsA?q=1").contains '?' = true := by
  exact ⟨by decide, by decide, by decide, by decide, by decide, by decide⟩

/-- C9 (amended): on every denial the audited path is the raw
request-target (encoded, backend segment and query string included); on
the outcomes that reach the forward phase the audited path is the decoded,
query-stripped path with the original query string re-appended. -/
theorem audit_path_spec :
    (∀ (cfg : Config) (m url : Str) (rh : List (Str × Str)) (ch : List Nat)
        (u : UpstreamResult) (c : Str),
      (handleRequest cfg m url rh ch u).outcome = OutcomeTag.denied c →
      (handleRequest cfg m url rh ch u).audits.map (fun e => e.path) = [url]) ∧
    (∀ (cfg : Config) (m url : Str) (rh : List (Str × Str)) (ch : List Nat)
        (u : UpstreamResult) (bn rawPath tp : Str) (be : BackendConfig),
      url ≠ str "/agentauth/health" →
      splitBackend url = some (bn, rawPath) →
      decodeURIComponent (beforeQuery rawPath) = some tp →
      containsDotDot tp = false →
      lookupBackend cfg.backends bn = some be →
      isPathAllowed tp be.allowedPaths = true →
      (handleRequest cfg m url rh ch u).audits.map (fun e => e.path)
        = [tp ++ rawQuery rawPath]) := by
  constructor
  · intro cfg m url rh ch u c h
    obtain ⟨msg, b, heq⟩ := handleRequest_denied_eq_deny cfg m url rh ch u c h
    rw [heq]
    rfl
  · intro cfg m url rh ch u bn rawPath tp be hne hsplit hdec hdot hlb hallow
    rw [handleRequest_routed cfg m url rh ch u bn rawPath tp hne hsplit hdec,
      if_neg (by simp [hdot])]
    simp only [hlb]
    rw [if_pos hallow]
    exact forward_audits_path be bn (tp ++ rawQuery rawPath) m rh ch u

theorem audit_path_spec_witness :
    (handleRequest cfg0 (str "GET") (str "/b/ok%41?q=2") [] []
      (UpstreamResult.responds 200 [] 1)).audits.map (fun e => e.path)
      = [str "/okA?q=2"] :=
  (audit_path_spec.2 cfg0 (str "GET") (str "/b/ok%41?q=2") [] []
    (UpstreamResult.responds 200 [] 1) (str "b") (str "/ok%41?q=2") (str "/okA")
    be0 (by decide) (by decide) (by decide) (by decide) (by decide)
    (by decide)).trans (by decide)

/-! ## Event-machine invariant -/

theorem runFwd_inv (ctx : FwdCtx) :
    ∀ (events : List FwdEvent) (s : FwdState) (seen : Bool),
      fwdInv s seen →
      (if seen then 1 else 0) + events.countP isUpstreamEvent ≤ 1 →
      ∃ seen2, fwdInv (events.foldl (stepFwd ctx) s) seen2 := by
  intro events
  induction events with
  | nil =>
    intro s seen hinv _
    exact ⟨seen, hinv⟩
  | cons e rest ih =>
    intro s seen hinv hcnt
    rw [List.foldl_cons]
    rw [List.countP_cons] at hcnt
    obtain ⟨h1, h2, h3⟩ := hinv
    cases e with
    | data n =>
      have hcnt2 : (if seen then 1 else 0) + rest.countP isUpstreamEvent ≤ 1 := by
        have he : (if isUpstreamEvent (FwdEvent.data n) = true then 1 else 0) = 0 := rfl
        rw [he] at hcnt
        omega
      refine ih (stepFwd ctx s (FwdEvent.data n)) seen ?_ hcnt2
      simp only [stepFwd]
      by_cases hrd : s.reqDestroyed
      · rw [if_pos hrd]
        exact ⟨h1, h2, h3⟩
      · rw [if_neg hrd]
        by_cases hov : s.received + n > ctx.maxBody
        · rw [if_pos hov]
          refine ⟨?_, by simp, by simp⟩
          simp only [List.length_append]
          cases hhs : s.headersSent <;> rw [hhs] at h1 <;> simp [h1]
        · rw [if_neg hov]
          exact ⟨h1, h2, h3⟩
    | bodyEnd =>
      have hcnt2 : (if seen then 1 else 0) + rest.countP isUpstreamEvent ≤ 1 := by
        have he : (if isUpstreamEvent FwdEvent.bodyEnd = true then 1 else 0) = 0 := rfl
        rw [he] at hcnt
        omega
      exact ih s seen ⟨h1, h2, h3⟩ hcnt2
    | upstreamResponse st hdrs dur =>
      have he : (if isUpstreamEvent (FwdEvent.upstreamResponse st hdrs dur) = true
          then 1 else 0) = 1 := rfl
      rw [he] at hcnt
      have hseen : seen = false := by
        cases hs2 : seen
        · rfl
        · rw [hs2, if_pos rfl] at hcnt
          omega
      rw [hseen, if_neg Bool.false_ne_true] at hcnt
      have hrest : rest.countP isUpstreamEvent = 0 := by omega
      refine ih _ true ?_ (by simp [hrest])
      simp only [stepFwd]
      by_cases hpd : s.proxyDestroyed
      · rw [if_pos hpd]
        exact ⟨h1, h2, fun _ _ => rfl⟩
      · rw [if_neg hpd]
        have hns : s.headersSent = false := by
          cases hhs : s.headersSent
          · rfl
          · rw [h3 hhs (by simpa using hpd)] at hseen
            cases hseen
        rw [hns] at h1
        refine ⟨?_, by simp, fun _ _ => rfl⟩
        simp [List.length_append, h1]
    | upstreamError msg dur =>
      have he : (if isUpstreamEvent (FwdEvent.upstreamError msg dur) = true
          then 1 else 0) = 1 := rfl
      rw [he] at hcnt
      have hseen : seen = false := by
        cases hs2 : seen
        · rfl
        · rw [hs2, if_pos rfl] at hcnt
          omega
      rw [hseen, if_neg Bool.false_ne_true] at hcnt
      have hrest : rest.countP isUpstreamEvent = 0 := by omega
      refine ih _ true ?_ (by simp [hrest])
      simp only [stepFwd]
      refine ⟨?_, by simp, fun _ _ => rfl⟩
      simp only [List.length_append]
      cases hhs : s.headersSent <;> rw [hhs] at h1 <;> simp [h1]

/-- C7 counterexample: an upstream connection error followed by a
body-limit violation on the same request (the client is still uploading
when the connection fails — a trace with a single upstream event, hence
deliverable by the runtime) produces two audit entries, refuting "exactly
one audit entry per request"; only one response is written. -/
theorem double_audit_cex :
    List.countP isUpstreamEvent trace0 ≤ 1 ∧
    (runFwd ctx0 trace0).audits.length = 2 ∧
    (runFwd ctx0 trace0).writes.length = 1 := by
  exact ⟨by decide, by decide, by decide⟩

/-- C7 (amended): over any event trace with at most one upstream event,
at most one HTTP response is ever written (writes after `headersSent` are
suppressed), and a response has been written iff some terminal transition
was audited; each denial produces exactly one audit entry, and the
sequential forward phase produces exactly one audit entry — but a single
request may pass through two terminal transitions (an upstream error
racing the body-size check) and then writes two audit entries, so
"exactly one audit entry" does not hold in general. -/
theorem response_once_audit_per_terminal :
    (∀ (ctx : FwdCtx) (events : List FwdEvent),
      events.countP isUpstreamEvent ≤ 1 →
      (runFwd ctx events).writes.length ≤ 1 ∧
      ((runFwd ctx events).audits = [] ↔ (runFwd ctx events).writes = [])) ∧
    (∀ (cfg : Config) (m url : Str) (rh : List (Str × Str)) (ch : List Nat)
        (u : UpstreamResult) (c : Str),
      (handleRequest cfg m url rh ch u).outcome = OutcomeTag.denied c →
      (handleRequest cfg m url rh ch u).audits.length = 1) ∧
    (∀ (be : BackendConfig) (bn tp m : Str) (rh : List (Str × Str)) (ch : List Nat)
        (u : UpstreamResult), (forward be bn tp m rh ch u).audits.length = 1) := by
  refine ⟨?_, ?_, ?_⟩
  · intro ctx events hcnt
    simp only [runFwd]
    obtain ⟨seen2, h1, h2, _⟩ := runFwd_inv ctx events initFwdState false
      ⟨rfl, by simp [initFwdState], by simp [initFwdState]⟩ (by simpa using hcnt)
    constructor
    · rw [h1]
      cases (events.foldl (stepFwd ctx) initFwdState).headersSent <;> simp
    · cases hhs : (events.foldl (stepFwd ctx) initFwdState).headersSent
      · rw [hhs] at h1 h2
        simp at h1 h2
        simp [h1, h2]
      · rw [hhs] at h1 h2
        simp at h1 h2
        constructor
        · intro ha
          exact absurd ha h2
        · intro hw
          rw [hw] at h1
          cases h1
  · intro cfg m url rh ch u c h
    obtain ⟨msg, b, heq⟩ := handleRequest_denied_eq_deny cfg m url rh ch u c h
    rw [heq]
    rfl
  · intro be bn tp m rh ch u
    unfold forward
    by_cases hab : bodyAborted (maxBodyOf be) 0 ch
    · simp [hab]
    · cases u <;> simp [hab]

theorem response_once_audit_per_terminal_witness :
    (runFwd ctx0 [FwdEvent.data 3, FwdEvent.upstreamResponse 200 [] 5]).writes.length
      ≤ 1 :=
  (response_once_audit_per_terminal.1 ctx0
    [FwdEvent.data 3, FwdEvent.upstreamResponse 200 [] 5] (by decide)).1

end AgentAuth
